import Mathlib

/-
Shallow embedding of the geometry core of µPlot: the line-segment clipping
routines of `src/clipping.c` and the box/mapping routines of `src/mappings.c`,
together with the macros of `src/muPlot.h` they expand
(`MP_CLIP_TBRL`, `MP_CLIP_INTERSECT`, `MP_CHECK_BOX`, `MP_CHECK_MAPPING`,
`MP_IS_FINITE`).

Coordinates are idealized as exact rationals (`ℚ`); the finiteness-sensitive
box validation of `MpReorderBoxLimits` is additionally embedded over a small
IEEE-style value type `FP` that has non-finite values, so that the
`MP_IS_FINITE(x) == ((x - x) == 0)` test is meaningful.  Out-parameters that
the C code may leave unwritten are modelled as `Option` values (`none` =
never written).  Callback-driven drawing functions are modelled by callback
status functions `ℚ → ℚ → MpStatus` plus an explicit trace of callback
invocations (`Event`).
-/

namespace MuPlot

/-- The subset of the `MpStatus` enum of `muPlot.h` reachable in the geometry
core: `MP_OK` (0) and `MP_SINGULAR` (16). -/
inductive MpStatus where
  | ok
  | singular
  deriving DecidableEq, Repr

/-- `MpBoxFlt` / `MpBoxDbl` of `muPlot.h`: a rectangle given by its four
bounds, in the field order of the C struct. -/
structure MpBox where
  xmin : ℚ
  xmax : ℚ
  ymin : ℚ
  ymax : ℚ
  deriving DecidableEq, Repr

/-- The macro `MP_CLIP_TBRL(X, Y, XMIN, XMAX, YMIN, YMAX)` of `muPlot.h`:
Top-Bottom-Right-Left outcode bits of a point relative to a window with
sorted limits. -/
def MP_CLIP_TBRL (x y xmin xmax ymin ymax : ℚ) : ℕ :=
  (if x < xmin then 1 else if x > xmax then 2 else 0) |||
  (if y < ymin then 4 else if y > ymax then 8 else 0)

/-- The macro `MP_CLIP_INTERSECT(T, REJECT, X1C, Y1C, DX, DY, X1, Y1, X2, Y2,
XMIN, XMAX, YMIN, YMAX)` of `muPlot.h`.  `(x1, y1)` is the end-point being
moved, `(x2, y2)` the other end-point; the result is `some` of the clipped
point when the macro assigns `X1C, Y1C`, and `none` when it executes
`REJECT` (leaving `X1C, Y1C` unwritten).  The final validity check is
embedded exactly as written in the source:
`if (_y1 > (YMIN) || _y1 > (YMAX)) REJECT;`. -/
def MP_CLIP_INTERSECT (dx dy x1 y1 x2 y2 xmin xmax ymin ymax : ℚ) :
    Option (ℚ × ℚ) :=
  let q1 : ℚ × ℚ :=
    if y1 > ymax then (x2 + (ymax - y2) * (dx / dy), ymax)
    else if y1 < ymin then (x2 + (ymin - y2) * (dx / dy), ymin)
    else (x1, y1)
  let q2 : ℚ × ℚ :=
    if q1.1 > xmax then (xmax, y2 + (xmax - x2) * (dy / dx))
    else if q1.1 < xmin then (xmin, y2 + (xmin - x2) * (dy / dx))
    else q1
  if q2.2 > ymin ∨ q2.2 > ymax then none else some q2

/-- Ordered lower x bound: the `if (box->xmin <= box->xmax)` prologue that is
repeated at the top of `CLIP_SEGMENT`, `CLIP_SEGMENTS`,
`DRAW_CLIPPED_SEGMENT`, `DRAW_CLIPPED_SEGMENTS` and `MP_INITIALIZE_CLIP`. -/
def MpBox.oxmin (b : MpBox) : ℚ := if b.xmin ≤ b.xmax then b.xmin else b.xmax

/-- Ordered upper x bound of the prologue (see `MpBox.oxmin`). -/
def MpBox.oxmax (b : MpBox) : ℚ := if b.xmin ≤ b.xmax then b.xmax else b.xmin

/-- Ordered lower y bound of the prologue (see `MpBox.oxmin`). -/
def MpBox.oymin (b : MpBox) : ℚ := if b.ymin ≤ b.ymax then b.ymin else b.ymax

/-- Ordered upper y bound of the prologue (see `MpBox.oxmin`). -/
def MpBox.oymax (b : MpBox) : ℚ := if b.ymin ≤ b.ymax then b.ymax else b.ymin

/-- `CLIP_SEGMENT` (`MpClipSegmentFlt` / `MpClipSegmentDbl`) of
`src/clipping.c`.  The result is the returned `int` code together with the
four out-parameters `*x1c, *y1c, *x2c, *y2c` (`none` when the corresponding
store was never executed before returning).  The outcodes are computed
against the locally ordered bounds, but — exactly as in the source — the two
`MP_CLIP_INTERSECT` expansions receive the raw `box->xmin, box->xmax,
box->ymin, box->ymax` fields. -/
def MpClipSegment (box : MpBox) (x1 y1 x2 y2 : ℚ) :
    ℕ × Option ℚ × Option ℚ × Option ℚ × Option ℚ :=
  let xmin := box.oxmin
  let xmax := box.oxmax
  let ymin := box.oymin
  let ymax := box.oymax
  let c1 := MP_CLIP_TBRL x1 y1 xmin xmax ymin ymax
  let c2 := MP_CLIP_TBRL x2 y2 xmin xmax ymin ymax
  if c1 = 0 ∧ c2 = 0 then
    (1, some x1, some y1, some x2, some y2)
  else if c1 &&& c2 = 0 then
    let dx := x2 - x1
    let dy := y2 - y1
    let r1 := if c1 = 0 then some (x1, y1)
              else MP_CLIP_INTERSECT dx dy x1 y1 x2 y2
                     box.xmin box.xmax box.ymin box.ymax
    match r1 with
    | none => (0, none, none, none, none)
    | some (a1, b1) =>
      let r2 := if c2 = 0 then some (x2, y2)
                else MP_CLIP_INTERSECT dx dy x2 y2 x1 y1
                       box.xmin box.xmax box.ymin box.ymax
      match r2 with
      | none => (0, some a1, some b1, none, none)
      | some (a2, b2) => (2, some a1, some b1, some a2, some b2)
  else (0, none, none, none, none)

/-- `CLIP_SEGMENTS` (`MpClipSegmentsFlt` / `MpClipSegmentsDbl`) of
`src/clipping.c`.  The input arrays are modelled as index functions, the
output arrays as the list of kept segments (the returned count is the list
length).  The loop bound is embedded exactly as written in the source:
`for (i = 1; i < n; ++i)`, i.e. the indices `1, …, n-1`.  Here, unlike in
`CLIP_SEGMENT`, the `MP_CLIP_INTERSECT` expansions receive the ordered
bounds. -/
def MpClipSegments (box : MpBox) (x y : ℕ → ℚ) (n : ℕ) :
    List (ℚ × ℚ × ℚ × ℚ) :=
  let xmin := box.oxmin
  let xmax := box.oxmax
  let ymin := box.oymin
  let ymax := box.oymax
  ((List.range n).drop 1).foldl
    (fun acc i =>
      let x1 := x (2 * i)
      let y1 := y (2 * i)
      let x2 := x (2 * i + 1)
      let y2 := y (2 * i + 1)
      let c1 := MP_CLIP_TBRL x1 y1 xmin xmax ymin ymax
      let c2 := MP_CLIP_TBRL x2 y2 xmin xmax ymin ymax
      if c1 = 0 ∧ c2 = 0 then acc ++ [(x1, y1, x2, y2)]
      else if c1 &&& c2 = 0 then
        let dx := x2 - x1
        let dy := y2 - y1
        let r1 := if c1 = 0 then some (x1, y1)
                  else MP_CLIP_INTERSECT dx dy x1 y1 x2 y2 xmin xmax ymin ymax
        match r1 with
        | none => acc
        | some (a1, b1) =>
          let r2 := if c2 = 0 then some (x2, y2)
                    else MP_CLIP_INTERSECT dx dy x2 y2 x1 y1 xmin xmax ymin ymax
          match r2 with
          | none => acc
          | some (a2, b2) => acc ++ [(a1, b1, a2, b2)]
      else acc)
    []

/-- One callback invocation performed by a callback-driven drawing
function. -/
inductive Event where
  | move (x y : ℚ)
  | draw (x y : ℚ)
  deriving DecidableEq, Repr

/-- `DRAW_CLIPPED_SEGMENT` (`MpDrawClippedSegmentFlt` / `Dbl`) of
`src/clipping.c`.  The callbacks are modelled by their returned status; the
second component of the result is the trace of callback invocations, in
order.  The `reject` exit returns the initial `status = MP_OK` without
invoking any callback. -/
def MpDrawClippedSegment (move draw : ℚ → ℚ → MpStatus) (box : MpBox)
    (x1 y1 x2 y2 : ℚ) : MpStatus × List Event :=
  let xmin := box.oxmin
  let xmax := box.oxmax
  let ymin := box.oymin
  let ymax := box.oymax
  let c1 := MP_CLIP_TBRL x1 y1 xmin xmax ymin ymax
  let c2 := MP_CLIP_TBRL x2 y2 xmin xmax ymin ymax
  let accept := fun (x1c y1c x2c y2c : ℚ) =>
    let st := move x1c y1c
    if st = MpStatus.ok then
      (draw x2c y2c, [Event.move x1c y1c, Event.draw x2c y2c])
    else (st, [Event.move x1c y1c])
  if c1 = 0 ∧ c2 = 0 then accept x1 y1 x2 y2
  else if c1 &&& c2 = 0 then
    let dx := x2 - x1
    let dy := y2 - y1
    let r1 := if c1 ≠ 0 then MP_CLIP_INTERSECT dx dy x1 y1 x2 y2 xmin xmax ymin ymax
              else some (x1, y1)
    match r1 with
    | none => (MpStatus.ok, [])
    | some (a1, b1) =>
      let r2 := if c2 ≠ 0 then MP_CLIP_INTERSECT dx dy x2 y2 x1 y1 xmin xmax ymin ymax
                else some (x2, y2)
      match r2 with
      | none => (MpStatus.ok, [])
      | some (a2, b2) => accept a1 b1 a2 b2
  else (MpStatus.ok, [])

end MuPlot

namespace MuPlot

/-- `MpClipStateFlt` / `MpClipStateDbl` of `muPlot.h`, in the field order of
the C struct. -/
structure ClipState where
  c1 : ℕ
  c2 : ℕ
  x1 : ℚ
  y1 : ℚ
  x2 : ℚ
  y2 : ℚ
  xmin : ℚ
  xmax : ℚ
  ymin : ℚ
  ymax : ℚ
  x1c : ℚ
  y1c : ℚ
  x2c : ℚ
  y2c : ℚ
  deriving DecidableEq, Repr

/-- `CLIP_INIT` (`MpInitializeClipFlt` / `Dbl`), i.e. the macro
`MP_INITIALIZE_CLIP_PTR` of `muPlot.h`: order the box bounds into the state
and register the first point as the current second point.  The C code leaves
`c1, x1, y1` and the four clipped coordinates indeterminate (they are always
overwritten before being read); the embedding picks `0` for them. -/
def MpInitializeClip (x y : ℚ) (box : MpBox) : ClipState :=
  { c1 := 0
    c2 := MP_CLIP_TBRL x y box.oxmin box.oxmax box.oymin box.oymax
    x1 := 0
    y1 := 0
    x2 := x
    y2 := y
    xmin := box.oxmin
    xmax := box.oxmax
    ymin := box.oymin
    ymax := box.oymax
    x1c := 0
    y1c := 0
    x2c := 0
    y2c := 0 }

/-- `CLIP_NEXT` (`MpClipNextFlt` / `MpClipNextDbl`) of `src/clipping.c`:
advance the polyline clip state by one point and classify the new segment.
Returns the updated state (the C function mutates `*w`) together with the
returned `int` code (0, 1 or 2).  On a `goto reject` taken inside the second
`MP_CLIP_INTERSECT`, the first clipped point already stored in `x1c, y1c`
persists, exactly as in the C state struct. -/
def MpClipNext (w : ClipState) (x y : ℚ) : ClipState × ℕ :=
  let w1 : ClipState :=
    { w with
      c1 := w.c2
      x1 := w.x2
      y1 := w.y2
      c2 := MP_CLIP_TBRL x y w.xmin w.xmax w.ymin w.ymax
      x2 := x
      y2 := y }
  if w1.c1 = 0 ∧ w1.c2 = 0 then (w1, 1)
  else if w1.c1 &&& w1.c2 = 0 then
    let dx := w1.x2 - w1.x1
    let dy := w1.y2 - w1.y1
    let r1 := if w1.c1 = 0 then some (w1.x1, w1.y1)
              else MP_CLIP_INTERSECT dx dy w1.x1 w1.y1 w1.x2 w1.y2
                     w1.xmin w1.xmax w1.ymin w1.ymax
    match r1 with
    | none => (w1, 0)
    | some (a1, b1) =>
      let w2 : ClipState := { w1 with x1c := a1, y1c := b1 }
      let r2 := if w2.c2 = 0 then some (w2.x2, w2.y2)
                else MP_CLIP_INTERSECT dx dy w2.x2 w2.y2 w2.x1 w2.y1
                       w2.xmin w2.xmax w2.ymin w2.ymax
      match r2 with
      | none => (w2, 0)
      | some (a2, b2) => ({ w2 with x2c := a2, y2c := b2 }, 2)
  else (w1, 0)

end MuPlot

namespace MuPlot

/-- The loop-local state of `DRAW_CLIPPED_POLYLINE` of `src/clipping.c`: the
clip state `w`, the `flag` that forces the first `move`, and the previous
emitted second end-point `(x2p, y2p)`. -/
structure PolyState where
  w : ClipState
  flag : Bool
  x2p : ℚ
  y2p : ℚ
  deriving DecidableEq, Repr

/-- A segment end-point pair, used for the coordinates selected by
`DRAW_CLIPPED_POLYLINE` after a non-zero classification. -/
structure Seg where
  x1 : ℚ
  y1 : ℚ
  x2 : ℚ
  y2 : ℚ
  deriving DecidableEq, Repr

/-- The `if (state == 1) … else …` coordinate selection in the loop body of
`DRAW_CLIPPED_POLYLINE`: raw coordinates for code 1, clipped coordinates
otherwise. -/
def emittedSeg (w : ClipState) (code : ℕ) : Seg :=
  if code = 1 then ⟨w.x1, w.y1, w.x2, w.y2⟩ else ⟨w.x1c, w.y1c, w.x2c, w.y2c⟩

/-- One iteration of the loop body of `DRAW_CLIPPED_POLYLINE`
(`MpDrawClippedPolylineFlt` / `Dbl`) of `src/clipping.c`, for the next
polyline point `(x, y)`.  Returns the state after the iteration, the trace
of callback invocations of this iteration, and the status (an early
`return status` of the C function is modelled by a non-`ok` third
component, which makes the driver below stop). -/
def polyStep (move draw : ℚ → ℚ → MpStatus) (s : PolyState) (x y : ℚ) :
    PolyState × List Event × MpStatus :=
  let r := MpClipNext s.w x y
  if r.2 ≠ 0 then
    let g := emittedSeg r.1 r.2
    if s.flag = true ∨ g.x1 ≠ s.x2p ∨ g.y1 ≠ s.y2p then
      let m := move g.x1 g.y1
      if m ≠ MpStatus.ok then
        ({ s with w := r.1 }, [Event.move g.x1 g.y1], m)
      else
        let d := draw g.x2 g.y2
        if d ≠ MpStatus.ok then
          ({ s with w := r.1 }, [Event.move g.x1 g.y1, Event.draw g.x2 g.y2], d)
        else
          (⟨r.1, false, g.x2, g.y2⟩,
           [Event.move g.x1 g.y1, Event.draw g.x2 g.y2], MpStatus.ok)
    else
      let d := draw g.x2 g.y2
      if d ≠ MpStatus.ok then
        ({ s with w := r.1 }, [Event.draw g.x2 g.y2], d)
      else
        (⟨r.1, false, g.x2, g.y2⟩, [Event.draw g.x2 g.y2], MpStatus.ok)
  else ({ s with w := r.1 }, [], MpStatus.ok)

/-- The loop of `DRAW_CLIPPED_POLYLINE` over the remaining points, threading
`polyStep` and stopping at the first non-`ok` status, as the C function
returns early when a callback fails. -/
def drawPolylineLoop (move draw : ℚ → ℚ → MpStatus) :
    PolyState → List (ℚ × ℚ) → MpStatus × List Event
  | _, [] => (MpStatus.ok, [])
  | s, q :: qs =>
    let r := polyStep move draw s q.1 q.2
    if r.2.2 = MpStatus.ok then
      let rest := drawPolylineLoop move draw r.1 qs
      (rest.1, r.2.1 ++ rest.2)
    else (r.2.2, r.2.1)

/-- `DRAW_CLIPPED_POLYLINE` (`MpDrawClippedPolylineFlt` / `Dbl`) of
`src/clipping.c`, over a list of polyline points.  With fewer than two
points the loop body never runs and the function returns `MP_OK` having
invoked no callback. -/
def MpDrawClippedPolyline (move draw : ℚ → ℚ → MpStatus) (box : MpBox)
    (pts : List (ℚ × ℚ)) : MpStatus × List Event :=
  match pts with
  | [] => (MpStatus.ok, [])
  | [_] => (MpStatus.ok, [])
  | p :: q :: qs =>
    drawPolylineLoop move draw ⟨MpInitializeClip p.1 p.2 box, true, 0, 0⟩
      (q :: qs)

end MuPlot

namespace MuPlot

/-- `MpMappingFlt` / `MpMappingDbl` of `muPlot.h`: the simple (axis-aligned
affine) mapping `x ↦ xx*x + x₀`, `y ↦ yy*y + y₀`, in the field order of the
C struct. -/
structure MpMapping where
  xx : ℚ
  x : ℚ
  yy : ℚ
  y : ℚ
  deriving DecidableEq, Repr

/-- The macro `MP_IS_FINITE(x) == (((x) - (x)) == 0)` of `muPlot.h`, at
rational values (where it is identically true; the `FP` embedding below
keeps the non-finite cases). -/
def MP_IS_FINITE_Q (q : ℚ) : Bool := q - q == 0

/-- `CHECK_MAPPING` (`MpCheckMappingFlt` / `Dbl`), i.e. the macro
`MP_CHECK_MAPPING_PTR` of `muPlot.h`, over rational coefficients. -/
def MpCheckMapping (m : MpMapping) : MpStatus :=
  if MP_IS_FINITE_Q m.xx && MP_IS_FINITE_Q m.x &&
     MP_IS_FINITE_Q m.yy && MP_IS_FINITE_Q m.y
  then MpStatus.ok else MpStatus.singular

/-- `DEFINE_MAPPING` (`MpDefineMappingFlt` / `MpDefineMappingDbl`) of
`src/mappings.c`.  The destination is `none` when the function returns
`MP_SINGULAR` before writing `*dst`.  `MP_FLIP_X = 1` and `MP_FLIP_Y = 2`;
both branches of each flip conditional are kept exactly as in the source
(they compute the same assignment). -/
def MpDefineMapping (inp out : MpBox) (flip : ℕ) :
    MpStatus × Option MpMapping :=
  let dx := inp.xmax - inp.xmin
  let dy := inp.ymax - inp.ymin
  if dx = 0 ∨ dy = 0 then (MpStatus.singular, none)
  else
    let out_xmin := if flip &&& 1 = 0 then out.xmin else out.xmin
    let out_xmax := if flip &&& 1 = 0 then out.xmax else out.xmax
    let out_ymin := if flip &&& 2 = 0 then out.ymin else out.ymin
    let out_ymax := if flip &&& 2 = 0 then out.ymax else out.ymax
    let m : MpMapping :=
      { xx := (out_xmax - out_xmin) / dx
        x := (inp.xmax * out_xmin - inp.xmin * out_xmax) / dx
        yy := (out_ymax - out_ymin) / dy
        y := (inp.ymax * out_ymin - inp.ymin * out_ymax) / dy }
    (MpCheckMapping m, some m)

/-- `COMPOSE_MAPPINGS` (`MpComposeMappingsFlt` / `Dbl`) of
`src/mappings.c`: the composition `A ∘ B` (the C code writes `dst->x`
before `dst->xx` to be safe in place; a record literal captures the same
final values). -/
def MpComposeMappings (A B : MpMapping) : MpStatus × MpMapping :=
  let m : MpMapping :=
    { x := A.xx * B.x + A.x
      xx := A.xx * B.xx
      y := A.yy * B.y + A.y
      yy := A.yy * B.yy }
  (MpCheckMapping m, m)

/-- `INVERT_MAPPING` (`MpInvertMappingFlt` / `Dbl`) of `src/mappings.c`.
`MP_IS_NAN` is identically false at rational values, so the singularity
guard reduces to the zero tests on `xx` and `yy`; the destination is `none`
when the function returns `MP_SINGULAR` before writing `*dst`. -/
def MpInvertMapping (A : MpMapping) : MpStatus × Option MpMapping :=
  if A.xx = 0 ∨ A.yy = 0 then (MpStatus.singular, none)
  else
    let m : MpMapping :=
      { x := -A.x / A.xx
        xx := 1 / A.xx
        y := -A.y / A.yy
        yy := 1 / A.yy }
    (MpCheckMapping m, some m)

end MuPlot

namespace MuPlot

/-- A floating-point value for the finiteness-sensitive parts of
`src/mappings.c`: a finite value (with exact rational magnitude), the two
infinities, or a NaN. -/
inductive FP where
  | fin (q : ℚ)
  | pinf
  | ninf
  | nan
  deriving DecidableEq, Repr

/-- IEEE subtraction on `FP`, as used by the macro `MP_IS_FINITE(x)`
(`(x) - (x)`): same-signed infinities subtract to NaN, NaN propagates. -/
def FP.sub : FP → FP → FP
  | FP.fin a, FP.fin b => FP.fin (a - b)
  | FP.fin _, FP.pinf => FP.ninf
  | FP.fin _, FP.ninf => FP.pinf
  | FP.pinf, FP.fin _ => FP.pinf
  | FP.ninf, FP.fin _ => FP.ninf
  | FP.pinf, FP.pinf => FP.nan
  | FP.pinf, FP.ninf => FP.pinf
  | FP.ninf, FP.pinf => FP.ninf
  | FP.ninf, FP.ninf => FP.nan
  | FP.nan, _ => FP.nan
  | _, FP.nan => FP.nan

/-- IEEE equality comparison on `FP` (`==` in C): false whenever a NaN is
involved. -/
def FP.ieeeEq : FP → FP → Bool
  | FP.fin a, FP.fin b => a == b
  | FP.pinf, FP.pinf => true
  | FP.ninf, FP.ninf => true
  | _, _ => false

/-- IEEE strict comparison `<` on `FP`: false whenever a NaN is involved. -/
def FP.lt : FP → FP → Bool
  | FP.fin a, FP.fin b => a < b
  | FP.fin _, FP.pinf => true
  | FP.ninf, FP.fin _ => true
  | FP.ninf, FP.pinf => true
  | _, _ => false

/-- IEEE comparison `<=` on `FP`: false whenever a NaN is involved. -/
def FP.le : FP → FP → Bool
  | FP.fin a, FP.fin b => a ≤ b
  | FP.fin _, FP.pinf => true
  | FP.ninf, FP.fin _ => true
  | FP.ninf, FP.pinf => true
  | FP.pinf, FP.pinf => true
  | FP.ninf, FP.ninf => true
  | _, _ => false

/-- The macro `MP_IS_FINITE(x) == (((x) - (x)) == 0)` of `muPlot.h` on
`FP` values. -/
def FP.isFinite (x : FP) : Bool := FP.ieeeEq (FP.sub x x) (FP.fin 0)

/-- A box over `FP` values, for `MpCheckBox` / `MpReorderBoxLimits`. -/
structure FPBox where
  xmin : FP
  xmax : FP
  ymin : FP
  ymax : FP
  deriving DecidableEq, Repr

/-- `CHECK_BOX` (`MpCheckBoxFlt` / `Dbl`), i.e. the macro `MP_CHECK_BOX_PTR`
of `muPlot.h`: `MP_OK` when all four bounds are finite, `MP_SINGULAR`
otherwise. -/
def MpCheckBox (b : FPBox) : MpStatus :=
  if FP.isFinite b.xmin && FP.isFinite b.xmax &&
     FP.isFinite b.ymin && FP.isFinite b.ymax
  then MpStatus.ok else MpStatus.singular

/-- `REORDER_BOX_LIMITS` (`MpReorderBoxLimitsFlt` / `Dbl`) of
`src/mappings.c`.  The pointer comparison `dst == src` is modelled by the
Boolean `same`; when `same = true` the caller passes the same box for both
arguments and the in-place swap-if-needed branch runs on it, otherwise the
out-of-place ordered copy runs.  The returned box is the final value of
`*dst` (unchanged when the initial `MP_CHECK_BOX_PTR(src)` fails).  The C
comparisons `dst->xmin > dst->xmax` and `src->xmin <= src->xmax` are the
IEEE comparisons `FP.lt` / `FP.le`. -/
def MpReorderBoxLimits (same : Bool) (dst src : FPBox) : MpStatus × FPBox :=
  let status := MpCheckBox src
  if status = MpStatus.ok then
    if same then
      let b1 := if FP.lt dst.xmax dst.xmin
                then { dst with xmin := dst.xmax, xmax := dst.xmin } else dst
      let b2 := if FP.lt b1.ymax b1.ymin
                then { b1 with ymin := b1.ymax, ymax := b1.ymin } else b1
      (status, b2)
    else
      let d1 := if FP.le src.xmin src.xmax
                then { dst with xmin := src.xmin, xmax := src.xmax }
                else { dst with xmin := src.xmax, xmax := src.xmin }
      let d2 := if FP.le src.ymin src.ymax
                then { d1 with ymin := src.ymin, ymax := src.ymax }
                else { d1 with ymin := src.ymax, ymax := src.ymin }
      (status, d2)
  else (status, dst)

end MuPlot

namespace MuPlot

/-- C1: for the box `{0,10,0,10}` and the segment `(-5,5)→(5,5)`, the
outcodes are `1` and `0` as the spec says, but `MpClipSegment` returns
result code `0` (segment rejected, no clipped output written) instead of
the claimed code `2` with end-points `(0,5)` and `(5,5)`: the final validity
check of `MP_CLIP_INTERSECT` (`_y1 > YMIN || _y1 > YMAX` in the source,
where the first comparison should be `<`) rejects every intersection whose
ordinate lies strictly above the lower bound. -/
theorem claim1_clip_segment_scenario :
    MP_CLIP_TBRL (-5) 5 0 10 0 10 = 1 ∧
    MP_CLIP_TBRL 5 5 0 10 0 10 = 0 ∧
    MpClipSegment ⟨0, 10, 0, 10⟩ (-5) 5 5 5 = (0, none, none, none, none) := by
  refine ⟨by decide, by decide, ?_⟩
  unfold MpClipSegment MP_CLIP_INTERSECT MP_CLIP_TBRL
    MpBox.oxmin MpBox.oxmax MpBox.oymin MpBox.oymax
  norm_num

/-- C2: batch clipping does not process the first (index 0) segment: with
`n = 1` and the single segment `(1,1)→(2,2)` fully inside the box
`{0,10,0,10}` (both outcodes `0`), `MpClipSegments` keeps `0` segments
instead of the claimed `1`, because the loop of `CLIP_SEGMENTS` starts at
`i = 1` while the header documents segments at indices `0, …, n-1`. -/
theorem claim2_first_segment_skipped :
    MP_CLIP_TBRL 1 1 0 10 0 10 = 0 ∧
    MP_CLIP_TBRL 2 2 0 10 0 10 = 0 ∧
    MpClipSegments ⟨0, 10, 0, 10⟩ (fun i => if i = 0 then 1 else 2)
      (fun i => if i = 0 then 1 else 2) 1 = [] := by
  decide

/-- C3: `MpClipSegment` on the y-unordered box `{xmin 0, xmax 10, ymin 10,
ymax 0}` does not behave like `MpClipSegment` on the per-axis reordered box
`{0, 10, 0, 10}`: for the segment `(5,-5)→(5,5)` the unordered box yields
result code `0` while the reordered box yields code `2`, because
`CLIP_SEGMENT` computes outcodes against locally ordered bounds but passes
the raw `box->xmin, …` fields to `MP_CLIP_INTERSECT`, whose documented
precondition is sorted limits. -/
theorem claim3_unordered_box_differs :
    MpBox.oxmin ⟨0, 10, 10, 0⟩ = 0 ∧ MpBox.oxmax ⟨0, 10, 10, 0⟩ = 10 ∧
    MpBox.oymin ⟨0, 10, 10, 0⟩ = 0 ∧ MpBox.oymax ⟨0, 10, 10, 0⟩ = 10 ∧
    (MpClipSegment ⟨0, 10, 10, 0⟩ 5 (-5) 5 5).1 = 0 ∧
    MpClipSegment ⟨0, 10, 0, 10⟩ 5 (-5) 5 5 =
      (2, some 5, some 0, some 5, some 5) := by
  refine ⟨by decide, by decide, by decide, by decide, ?_, ?_⟩ <;>
    (unfold MpClipSegment MP_CLIP_INTERSECT MP_CLIP_TBRL
      MpBox.oxmin MpBox.oxmax MpBox.oymin MpBox.oymax
     norm_num)

/-- C4: for an ordered box and a segment whose two end-points both have
outcode `0`, `MpClipSegment` returns code `1` and copies the four input
coordinates to the clipped outputs exactly. -/
theorem claim4_inside_segment_copied (box : MpBox) (x1 y1 x2 y2 : ℚ)
    (hx : box.xmin ≤ box.xmax) (hy : box.ymin ≤ box.ymax)
    (h1 : MP_CLIP_TBRL x1 y1 box.xmin box.xmax box.ymin box.ymax = 0)
    (h2 : MP_CLIP_TBRL x2 y2 box.xmin box.xmax box.ymin box.ymax = 0) :
    MpClipSegment box x1 y1 x2 y2 = (1, some x1, some y1, some x2, some y2) := by
  simp [MpClipSegment, MpBox.oxmin, MpBox.oxmax, MpBox.oymin, MpBox.oymax,
    hx, hy, h1, h2]

/-- Witness for C4 at the box `{0,10,0,10}` and segment `(1,1)→(2,2)`. -/
theorem claim4_witness :
    MpClipSegment ⟨0, 10, 0, 10⟩ 1 1 2 2 = (1, some 1, some 1, some 2, some 2) :=
  claim4_inside_segment_copied ⟨0, 10, 0, 10⟩ 1 1 2 2 (by norm_num) (by norm_num)
    (by decide) (by decide)

/-- C5: a segment whose two end-point outcodes (against the ordered bounds)
share a set bit is rejected as a normal outcome: `MpClipSegment` returns
code `0`, and `MpDrawClippedSegment` returns `MP_OK` while invoking neither
the `move` nor the `draw` callback. -/
theorem claim5_shared_outcode_rejected (move draw : ℚ → ℚ → MpStatus)
    (box : MpBox) (x1 y1 x2 y2 : ℚ)
    (h : MP_CLIP_TBRL x1 y1 box.oxmin box.oxmax box.oymin box.oymax &&&
         MP_CLIP_TBRL x2 y2 box.oxmin box.oxmax box.oymin box.oymax ≠ 0) :
    (MpClipSegment box x1 y1 x2 y2).1 = 0 ∧
    MpDrawClippedSegment move draw box x1 y1 x2 y2 = (MpStatus.ok, []) := by
  have hnot : ¬(MP_CLIP_TBRL x1 y1 box.oxmin box.oxmax box.oymin box.oymax = 0 ∧
      MP_CLIP_TBRL x2 y2 box.oxmin box.oxmax box.oymin box.oymax = 0) := by
    rintro ⟨ha, hb⟩
    exact h (by rw [ha, hb]; rfl)
  constructor
  · simp [MpClipSegment, hnot, h]
  · simp [MpDrawClippedSegment, hnot, h]

/-- Witness for C5 at the spec's scenario: box `{0,10,0,10}`, segment
`(-5,-5)→(-1,-1)` (both outcodes `5`). -/
theorem claim5_witness :
    (MpClipSegment ⟨0, 10, 0, 10⟩ (-5) (-5) (-1) (-1)).1 = 0 ∧
    MpDrawClippedSegment (fun _ _ => MpStatus.ok) (fun _ _ => MpStatus.ok)
      ⟨0, 10, 0, 10⟩ (-5) (-5) (-1) (-1) = (MpStatus.ok, []) :=
  claim5_shared_outcode_rejected (fun _ _ => MpStatus.ok)
    (fun _ _ => MpStatus.ok) ⟨0, 10, 0, 10⟩ (-5) (-5) (-1) (-1) (by decide)

/-- C6: in the loop of `DRAW_CLIPPED_POLYLINE`, when two consecutive
segments are both emitted and the first (clipped) end-point of the later
segment equals the emitted second end-point of the earlier one, the later
iteration does not re-invoke `move`: across the pair exactly one `move` and
two `draw` callbacks run. -/
theorem claim6_shared_endpoint_single_move (move draw : ℚ → ℚ → MpStatus)
    (hm : ∀ a b, move a b = MpStatus.ok) (hd : ∀ a b, draw a b = MpStatus.ok)
    (s : PolyState) (px py qx qy : ℚ) (w1 w2 : ClipState) (k1 k2 : ℕ)
    (g1 g2 : Seg)
    (hflag : s.flag = true)
    (hr1 : MpClipNext s.w px py = (w1, k1)) (hk1 : k1 ≠ 0)
    (hg1 : emittedSeg w1 k1 = g1)
    (hr2 : MpClipNext w1 qx qy = (w2, k2)) (hk2 : k2 ≠ 0)
    (hg2 : emittedSeg w2 k2 = g2)
    (hsx : g2.x1 = g1.x2) (hsy : g2.y1 = g1.y2) :
    polyStep move draw s px py =
      (⟨w1, false, g1.x2, g1.y2⟩,
       [Event.move g1.x1 g1.y1, Event.draw g1.x2 g1.y2], MpStatus.ok) ∧
    polyStep move draw ⟨w1, false, g1.x2, g1.y2⟩ qx qy =
      (⟨w2, false, g2.x2, g2.y2⟩, [Event.draw g2.x2 g2.y2], MpStatus.ok) := by
  constructor
  · simp [polyStep, hr1, hk1, hg1, hflag, hm, hd]
  · simp [polyStep, hr2, hk2, hg2, hsx, hsy, hm, hd]

/-- Witness for C6: the 3-point polyline `(1,1), (2,2), (3,3)` inside the
box `{0,10,0,10}`; the two segments share the vertex `(2,2)` and the pair
emits `move (1,1)`, `draw (2,2)`, `draw (3,3)`. -/
theorem claim6_witness :
    (polyStep (fun _ _ => MpStatus.ok) (fun _ _ => MpStatus.ok)
      ⟨MpInitializeClip 1 1 ⟨0, 10, 0, 10⟩, true, 0, 0⟩ 2 2).2.1 =
      [Event.move 1 1, Event.draw 2 2] ∧
    (polyStep (fun _ _ => MpStatus.ok) (fun _ _ => MpStatus.ok)
      (polyStep (fun _ _ => MpStatus.ok) (fun _ _ => MpStatus.ok)
        ⟨MpInitializeClip 1 1 ⟨0, 10, 0, 10⟩, true, 0, 0⟩ 2 2).1 3 3).2.1 =
      [Event.draw 3 3] := by
  have h := claim6_shared_endpoint_single_move
    (fun _ _ => MpStatus.ok) (fun _ _ => MpStatus.ok)
    (fun _ _ => rfl) (fun _ _ => rfl)
    ⟨MpInitializeClip 1 1 ⟨0, 10, 0, 10⟩, true, 0, 0⟩ 2 2 3 3
    (MpClipNext (MpInitializeClip 1 1 ⟨0, 10, 0, 10⟩) 2 2).1
    (MpClipNext (MpClipNext (MpInitializeClip 1 1 ⟨0, 10, 0, 10⟩) 2 2).1 3 3).1
    (MpClipNext (MpInitializeClip 1 1 ⟨0, 10, 0, 10⟩) 2 2).2
    (MpClipNext (MpClipNext (MpInitializeClip 1 1 ⟨0, 10, 0, 10⟩) 2 2).1 3 3).2
    (emittedSeg (MpClipNext (MpInitializeClip 1 1 ⟨0, 10, 0, 10⟩) 2 2).1
      (MpClipNext (MpInitializeClip 1 1 ⟨0, 10, 0, 10⟩) 2 2).2)
    (emittedSeg
      (MpClipNext (MpClipNext (MpInitializeClip 1 1 ⟨0, 10, 0, 10⟩) 2 2).1 3 3).1
      (MpClipNext (MpClipNext (MpInitializeClip 1 1 ⟨0, 10, 0, 10⟩) 2 2).1 3 3).2)
    rfl rfl (by decide) rfl rfl (by decide) rfl (by decide) (by decide)
  simp only [h.1, h.2]
  exact ⟨by decide, by decide⟩

/-- C7: `MpDefineMapping` ignores the flip mask: for all boxes and any two
masks it returns the same status and destination (both branches of each
flip conditional compute the same assignment in the source). -/
theorem claim7_flip_is_noop (inp out : MpBox) (f1 f2 : ℕ) :
    MpDefineMapping inp out f1 = MpDefineMapping inp out f2 := by
  simp [MpDefineMapping]

/-- C8: for a non-degenerate simple mapping (`xx ≠ 0`, `yy ≠ 0`; over the
exact rational embedding every coefficient is finite), inverting and
composing the inverse with the original yields exactly the identity mapping
`{xx 1, x 0, yy 1, y 0}`. -/
theorem claim8_invert_compose_identity (M : MpMapping)
    (hx : M.xx ≠ 0) (hy : M.yy ≠ 0) :
    ∃ I, MpInvertMapping M = (MpStatus.ok, some I) ∧
      MpComposeMappings I M = (MpStatus.ok, ⟨1, 0, 1, 0⟩) := by
  refine ⟨⟨1 / M.xx, -M.x / M.xx, 1 / M.yy, -M.y / M.yy⟩, ?_, ?_⟩
  · simp [MpInvertMapping, hx, hy, MpCheckMapping, MP_IS_FINITE_Q]
  · simp [MpComposeMappings, MpCheckMapping, MP_IS_FINITE_Q, MpMapping.mk.injEq]
    refine ⟨?_, ?_, ?_, ?_⟩ <;> field_simp

/-- Witness for C8 at the mapping `{xx 2, x 3, yy 5, y 7}`. -/
theorem claim8_witness :
    ∃ I, MpInvertMapping ⟨2, 3, 5, 7⟩ = (MpStatus.ok, some I) ∧
      MpComposeMappings I ⟨2, 3, 5, 7⟩ = (MpStatus.ok, ⟨1, 0, 1, 0⟩) :=
  claim8_invert_compose_identity ⟨2, 3, 5, 7⟩ (by norm_num) (by norm_num)

/-- Finiteness on `FP` singles out the finite values. -/
theorem FP.isFinite_iff (x : FP) : FP.isFinite x = true ↔ ∃ q, x = FP.fin q := by
  cases x <;> simp [FP.isFinite, FP.sub, FP.ieeeEq, sub_self]

/-- C9: `MpReorderBoxLimits` validates the source box first: with a
non-finite bound it returns `MP_SINGULAR` leaving the destination
untouched; with a finite source it returns `MP_OK` and the destination
holds the per-axis ordered bounds of the source — the same box whether the
destination aliases the source (in-place per-axis swap) or not (ordered
copy). -/
theorem claim9_reorder_box_limits (src dst : FPBox) :
    (MpCheckBox src ≠ MpStatus.ok →
       MpCheckBox src = MpStatus.singular ∧
       MpReorderBoxLimits false dst src = (MpStatus.singular, dst) ∧
       MpReorderBoxLimits true src src = (MpStatus.singular, src)) ∧
    (MpCheckBox src = MpStatus.ok →
       ∃ o, MpReorderBoxLimits false dst src = (MpStatus.ok, o) ∧
            MpReorderBoxLimits true src src = (MpStatus.ok, o) ∧
            FP.le o.xmin o.xmax = true ∧ FP.le o.ymin o.ymax = true ∧
            ((o.xmin = src.xmin ∧ o.xmax = src.xmax) ∨
             (o.xmin = src.xmax ∧ o.xmax = src.xmin)) ∧
            ((o.ymin = src.ymin ∧ o.ymax = src.ymax) ∨
             (o.ymin = src.ymax ∧ o.ymax = src.ymin))) := by
  constructor
  · intro h
    have hs : MpCheckBox src = MpStatus.singular := by
      cases hc : MpCheckBox src
      · exact absurd hc h
      · rfl
    exact ⟨hs, by simp [MpReorderBoxLimits, hs], by simp [MpReorderBoxLimits, hs]⟩
  · intro h
    obtain ⟨sxmin, sxmax, symin, symax⟩ := src
    have hcond : (FP.isFinite sxmin && FP.isFinite sxmax &&
        FP.isFinite symin && FP.isFinite symax) = true := by
      by_contra hc
      rw [MpCheckBox] at h
      simp only [Bool.not_eq_true] at hc
      rw [if_neg (by simp [hc])] at h
      exact absurd h (by simp)
    simp only [Bool.and_eq_true] at hcond
    obtain ⟨⟨⟨hf1, hf2⟩, hf3⟩, hf4⟩ := hcond
    obtain ⟨qxmin, rfl⟩ := (FP.isFinite_iff _).mp hf1
    obtain ⟨qxmax, rfl⟩ := (FP.isFinite_iff _).mp hf2
    obtain ⟨qymin, rfl⟩ := (FP.isFinite_iff _).mp hf3
    obtain ⟨qymax, rfl⟩ := (FP.isFinite_iff _).mp hf4
    by_cases hqx : qxmin ≤ qxmax <;> by_cases hqy : qymin ≤ qymax
    · refine ⟨⟨FP.fin qxmin, FP.fin qxmax, FP.fin qymin, FP.fin qymax⟩, ?_, ?_, ?_, ?_, ?_, ?_⟩ <;>
        simp [MpReorderBoxLimits, h, FP.le, FP.lt, hqx, hqy, not_lt.mpr hqx, not_lt.mpr hqy]
    · refine ⟨⟨FP.fin qxmin, FP.fin qxmax, FP.fin qymax, FP.fin qymin⟩, ?_, ?_, ?_, ?_, ?_, ?_⟩ <;>
        simp [MpReorderBoxLimits, h, FP.le, FP.lt, hqx, hqy, not_lt.mpr hqx,
          le_of_lt (lt_of_not_le hqy), lt_of_not_le hqy]
    · refine ⟨⟨FP.fin qxmax, FP.fin qxmin, FP.fin qymin, FP.fin qymax⟩, ?_, ?_, ?_, ?_, ?_, ?_⟩ <;>
        simp [MpReorderBoxLimits, h, FP.le, FP.lt, hqx, hqy, not_lt.mpr hqy,
          le_of_lt (lt_of_not_le hqx), lt_of_not_le hqx]
    · refine ⟨⟨FP.fin qxmax, FP.fin qxmin, FP.fin qymax, FP.fin qymin⟩, ?_, ?_, ?_, ?_, ?_, ?_⟩ <;>
        simp [MpReorderBoxLimits, h, FP.le, FP.lt, hqx, hqy,
          le_of_lt (lt_of_not_le hqx), lt_of_not_le hqx,
          le_of_lt (lt_of_not_le hqy), lt_of_not_le hqy]

/-- Witness for C9: a finite unordered source box is reordered the same way
in place and out of place, and a NaN bound makes the call fail leaving the
destination unchanged. -/
theorem claim9_witness :
    (∃ o, MpReorderBoxLimits false ⟨FP.fin 9, FP.fin 9, FP.fin 9, FP.fin 9⟩
            ⟨FP.fin 3, FP.fin 1, FP.fin 0, FP.fin 2⟩ = (MpStatus.ok, o) ∧
          MpReorderBoxLimits true ⟨FP.fin 3, FP.fin 1, FP.fin 0, FP.fin 2⟩
            ⟨FP.fin 3, FP.fin 1, FP.fin 0, FP.fin 2⟩ = (MpStatus.ok, o) ∧
          FP.le o.xmin o.xmax = true ∧ FP.le o.ymin o.ymax = true ∧
          ((o.xmin = FP.fin 3 ∧ o.xmax = FP.fin 1) ∨
           (o.xmin = FP.fin 1 ∧ o.xmax = FP.fin 3)) ∧
          ((o.ymin = FP.fin 0 ∧ o.ymax = FP.fin 2) ∨
           (o.ymin = FP.fin 2 ∧ o.ymax = FP.fin 0))) ∧
    MpReorderBoxLimits false ⟨FP.fin 9, FP.fin 9, FP.fin 9, FP.fin 9⟩
      ⟨FP.nan, FP.fin 1, FP.fin 0, FP.fin 2⟩ =
      (MpStatus.singular, ⟨FP.fin 9, FP.fin 9, FP.fin 9, FP.fin 9⟩) := by
  constructor
  · have h := (claim9_reorder_box_limits ⟨FP.fin 3, FP.fin 1, FP.fin 0, FP.fin 2⟩
      ⟨FP.fin 9, FP.fin 9, FP.fin 9, FP.fin 9⟩).2
      (by simp [MpCheckBox, FP.isFinite, FP.sub, FP.ieeeEq])
    obtain ⟨o, h1, h2, h3, h4, h5, h6⟩ := h
    exact ⟨o, h1, h2, h3, h4, h5, h6⟩
  · exact ((claim9_reorder_box_limits ⟨FP.nan, FP.fin 1, FP.fin 0, FP.fin 2⟩
      ⟨FP.fin 9, FP.fin 9, FP.fin 9, FP.fin 9⟩).1 (by decide)).2.1

/-- C10: every `MpClipNext` call, whatever code it returns, leaves the
stored clip-box bounds unchanged, registers the new point as the second
point with its outcode against those bounds, and shifts the previous second
point (coordinates and outcode) into the first-point registers. -/
theorem claim10_clipnext_invariant (w : ClipState) (x y : ℚ) :
    (MpClipNext w x y).1.xmin = w.xmin ∧ (MpClipNext w x y).1.xmax = w.xmax ∧
    (MpClipNext w x y).1.ymin = w.ymin ∧ (MpClipNext w x y).1.ymax = w.ymax ∧
    (MpClipNext w x y).1.x2 = x ∧ (MpClipNext w x y).1.y2 = y ∧
    (MpClipNext w x y).1.c2 = MP_CLIP_TBRL x y w.xmin w.xmax w.ymin w.ymax ∧
    (MpClipNext w x y).1.x1 = w.x2 ∧ (MpClipNext w x y).1.y1 = w.y2 ∧
    (MpClipNext w x y).1.c1 = w.c2 := by
  unfold MpClipNext
  dsimp only
  split_ifs <;> try simp
  all_goals (split <;> try simp)
  all_goals (split <;> try simp)

end MuPlot
